import Mathlib

/-!
Verification development for the casino reinvestment promotion builder
(`app.py`, `app2.py`, `app3.py`).

The Python sources are shallowly embedded: pandas column operations become
per-row pure functions over `ℚ` (missing / non-parseable numeric cells are
`Option ℚ` with `none` for `NaN`), strings are Lean `String`s, and the
sequential dataframe statements of each `apply_reinvestment` become an
explicit chain of stage functions in the same order as the source lines.
-/

namespace Promo2

/-! ## Python string primitives

Models of the `str` operations the sources use (`strip`, `replace`,
`upper`, `lower`, `re.sub`), over `List Char`.  All chars the business
labels use are ASCII once accents are stripped. -/

/-- The characters Python's default `str.strip()` removes (ASCII whitespace). -/
def isPySpace (c : Char) : Bool :=
  c = ' ' || c = '\t' || c = '\n' || c = '\r' || c = '\x0b' || c = '\x0c'

/-- `[0-9A-Za-z_]`, the character class kept by the `re.sub` removals. -/
def isWordChar (c : Char) : Bool :=
  (decide (('0' ≤ c ∧ c ≤ '9') ∨ ('A' ≤ c ∧ c ≤ 'Z') ∨ ('a' ≤ c ∧ c ≤ 'z') ∨ c = '_'))

/-- Python `str.strip()` with no argument: drop leading and trailing whitespace. -/
def pyStrip (l : List Char) : List Char :=
  ((l.dropWhile isPySpace).reverse.dropWhile isPySpace).reverse

/-- `str.strip("_")`: drop leading and trailing underscores. -/
def stripUnd (l : List Char) : List Char :=
  ((l.dropWhile (fun c => c = '_')).reverse.dropWhile (fun c => c = '_')).reverse

/-- ASCII uppercase of one character, as Python `str.upper()` acts on the
ASCII letters (all characters reaching it in these pipelines are ASCII). -/
def pyUpperChar (c : Char) : Char :=
  match c with
  | 'a' => 'A' | 'b' => 'B' | 'c' => 'C' | 'd' => 'D' | 'e' => 'E' | 'f' => 'F'
  | 'g' => 'G' | 'h' => 'H' | 'i' => 'I' | 'j' => 'J' | 'k' => 'K' | 'l' => 'L'
  | 'm' => 'M' | 'n' => 'N' | 'o' => 'O' | 'p' => 'P' | 'q' => 'Q' | 'r' => 'R'
  | 's' => 'S' | 't' => 'T' | 'u' => 'U' | 'v' => 'V' | 'w' => 'W' | 'x' => 'X'
  | 'y' => 'Y' | 'z' => 'Z'
  | other => other

/-- ASCII lowercase of one character, as Python `str.lower()` acts on ASCII. -/
def pyLowerChar (c : Char) : Char :=
  match c with
  | 'A' => 'a' | 'B' => 'b' | 'C' => 'c' | 'D' => 'd' | 'E' => 'e' | 'F' => 'f'
  | 'G' => 'g' | 'H' => 'h' | 'I' => 'i' | 'J' => 'j' | 'K' => 'k' | 'L' => 'l'
  | 'M' => 'm' | 'N' => 'n' | 'O' => 'o' | 'P' => 'p' | 'Q' => 'q' | 'R' => 'r'
  | 'S' => 's' | 'T' => 't' | 'U' => 'u' | 'V' => 'v' | 'W' => 'w' | 'X' => 'x'
  | 'Y' => 'y' | 'Z' => 'z'
  | other => other

/-- Is this character a lowercase ASCII letter (Python `str.islower` per char)? -/
def isLowerAscii (c : Char) : Bool :=
  match c with
  | 'a' | 'b' | 'c' | 'd' | 'e' | 'f' | 'g' | 'h' | 'i' | 'j' | 'k' | 'l' | 'm'
  | 'n' | 'o' | 'p' | 'q' | 'r' | 's' | 't' | 'u' | 'v' | 'w' | 'x' | 'y' | 'z' => true
  | _ => false

/-- Models `"".join(c for c in unicodedata.normalize("NFKD", s) if not
unicodedata.combining(c))`: NFKD decomposition followed by removal of
combining marks.  Restricted to the Latin diacritic letters occurring in the
Spanish-language labels this program processes: ASCII characters are
unchanged, precomposed accented Latin letters decompose to their base letter
(the combining mark being dropped), and standalone combining marks
U+0300–U+036F are dropped. -/
def stripAccentChar (c : Char) : List Char :=
  if 0x300 ≤ c.val ∧ c.val ≤ 0x36F then []
  else if c = 'á' then ['a'] else if c = 'é' then ['e'] else if c = 'í' then ['i']
  else if c = 'ó' then ['o'] else if c = 'ú' then ['u'] else if c = 'ñ' then ['n']
  else if c = 'ü' then ['u']
  else if c = 'Á' then ['A'] else if c = 'É' then ['E'] else if c = 'Í' then ['I']
  else if c = 'Ó' then ['O'] else if c = 'Ú' then ['U'] else if c = 'Ñ' then ['N']
  else if c = 'Ü' then ['U']
  else [c]

/-- NFKD-decompose a string and drop combining marks (see `stripAccentChar`). -/
def stripAccents (l : List Char) : List Char :=
  l.foldr (fun c acc => stripAccentChar c ++ acc) []

/-- `re.sub(r"\s+", "_", s)`: replace every maximal whitespace run by one
underscore. -/
def wsRunsToUnd : List Char → List Char
  | [] => []
  | [c] => if isPySpace c then ['_'] else [c]
  | c :: d :: rest =>
    if isPySpace c ∧ isPySpace d then wsRunsToUnd (d :: rest)
    else (if isPySpace c then '_' else c) :: wsRunsToUnd (d :: rest)

/-- `re.sub(r"_+", "_", s)`: collapse every run of underscores to one
underscore (keeping, for each run, a single `'_'`). -/
def squeezeUnd : List Char → List Char
  | [] => []
  | c :: rest =>
    let r := squeezeUnd rest
    if c = '_' ∧ r.head? = some '_' then r else c :: r

/-- `str.replace(" ", "_")`: replace each space character (only `' '`). -/
def spaceToUnd (l : List Char) : List Char :=
  l.map (fun c => if c = ' ' then '_' else c)

/-! ## The normalizers of the three revisions -/

/-- `clean_column_name` of `app.py` (identical in `app2.py`): strip the ends,
drop accents, `" "` → `"_"`, remove characters outside `[0-9a-zA-Z_]`,
collapse `_+`, strip edge underscores.  Case is preserved. -/
def clean_column_name (s : String) : String :=
  let l := pyStrip s.data
  let l := stripAccents l
  let l := spaceToUnd l
  let l := l.filter isWordChar
  let l := squeezeUnd l
  String.mk (stripUnd l)

/-- `normalize_gestion_value` of `app.py`: strip, drop accents,
whitespace runs → `"_"`, remove characters outside `[0-9A-Za-z_]`, uppercase.
(No collapsing of repeated underscores and no edge-underscore strip.) -/
def normalize_gestion_value (s : String) : String :=
  let l := pyStrip s.data
  let l := stripAccents l
  let l := wsRunsToUnd l
  let l := l.filter isWordChar
  String.mk (l.map pyUpperChar)

/-- `clean` of `app3.py`: strip, drop accents, remove characters outside
`[0-9A-Za-z_ ]` (spaces kept), `" "` → `"_"`, collapse `_+`, strip edge
underscores, lowercase. -/
def clean3 (s : String) : String :=
  let l := pyStrip s.data
  let l := stripAccents l
  let l := l.filter (fun c => isWordChar c || c = ' ')
  let l := spaceToUnd l
  let l := squeezeUnd l
  String.mk ((stripUnd l).map pyLowerChar)

/-- `normalize_gestion` of `app3.py`: drop accents, strip, `" "` → `"_"`,
uppercase, then remove characters outside `[0-9A-Za-z_]`. -/
def normalize_gestion3 (s : String) : String :=
  let l := stripAccents s.data
  let l := pyStrip l
  let l := spaceToUnd l
  let l := l.map pyUpperChar
  String.mk (l.filter isWordChar)

/-- Modelled from the spec: the §4.1 Normalizer exactly as the spec words it —
decompose Unicode and drop combining marks, replace whitespace runs with a
single underscore, remove characters outside `[0-9A-Za-z_]`, collapse
repeated underscores, strip leading/trailing underscores, and uppercase when
normalizing a categorical value (case preserved for column names).  Used
only to compare the spec's description with the source normalizers. -/
def specNormalize (categorical : Bool) (s : String) : String :=
  let l := stripAccents s.data
  let l := wsRunsToUnd l
  let l := l.filter isWordChar
  let l := squeezeUnd l
  let l := stripUnd l
  String.mk (if categorical then l.map pyUpperChar else l)

/-! ## Numeric primitives

Python/pandas floats are modelled as `ℚ`; a cell that `pd.to_numeric(...,
errors="coerce")` turns into `NaN` (non-parseable or missing) is `none`. -/

/-- `pd.to_numeric(col, errors="coerce").fillna(0)`: a non-parseable cell
becomes `0`. -/
def coerce0 (c : Option ℚ) : ℚ := c.getD 0

/-- Round-half-to-even to the nearest integer, as `numpy`/`pandas`
`Series.round` does. -/
def rhe (q : ℚ) : ℤ :=
  let f := q.floor
  let r := q - (f : ℚ)
  if r < 1 / 2 then f
  else if 1 / 2 < r then f + 1
  else if f % 2 = 0 then f else f + 1

/-- `Series.round(2)`: round to 2 decimal places (half to even). -/
def round2 (q : ℚ) : ℚ := (rhe (100 * q) : ℚ) / 100

/-! ## The eligibility / amount engine, row-wise

A pandas row of the working table.  Numeric columns are `Option ℚ`
(`none` = the raw cell does not parse as a number); label columns are
`String`. -/

structure Row where
  Gestion : String
  Pais : String
  NG : Option ℚ
  Visitas : Option ℚ
  TeoricoNeto : Option ℚ
  WinTotalNeto : Option ℚ
  WxV : Option ℚ
  Visitas_Est : Option ℚ
  Trip_Esperado : Option ℚ
  Pot_Trip : Option ℚ
  Pot_Visita : Option ℚ
  Comps : Option ℚ
  Promo2 : Option ℚ
  deriving DecidableEq

/-- Configuration of `app.py`'s `apply_reinvestment(df, pct_dict, min_wallet,
cap)`: the raw (un-normalized) percentage dict and the two scalars. -/
structure Config where
  pcts : List (String × ℚ)
  min_wallet : ℚ
  cap : ℚ
  deriving DecidableEq

/-- Configuration of `app3.py`'s `apply_reinvestment(df, pct_dict, min_wallet,
cap, country_caps)`: additionally the per-country `{min, max}` override dict
(an association list preserving insertion order). -/
structure Config3 where
  pcts : List (String × ℚ)
  min_wallet : ℚ
  cap : ℚ
  country_caps : List (String × ℚ × ℚ)
  deriving DecidableEq

/-- Python-dict lookup over an association list built by successive
insertion: a later binding of the same key overwrites an earlier one. -/
def dictGet (l : List (String × ℚ)) (k : String) : Option ℚ :=
  l.foldl (fun acc kv => if kv.1 = k then some kv.2 else acc) none

/-- `app.py` lines 118–123: normalize the keys of `pct_dict` with
`normalize_gestion_value`, then `df["GESTION_KEY"].map(pct_norm).fillna(0)`. -/
def pctForA (pcts : List (String × ℚ)) (key : String) : ℚ :=
  (dictGet (pcts.map (fun kv => (normalize_gestion_value kv.1, kv.2))) key).getD 0

/-- `app3.py` lines 83–84: same lookup, with `normalize_gestion` as the key
normalizer. -/
def pctFor3 (pcts : List (String × ℚ)) (key : String) : ℚ :=
  (dictGet (pcts.map (fun kv => (normalize_gestion3 kv.1, kv.2))) key).getD 0

/-- `app.py` line 101: `df["GESTION_KEY"]`. -/
def gKeyA (r : Row) : String := normalize_gestion_value r.Gestion

/-- `app3.py` line 75: `df["GESTION_KEY"]`. -/
def gKey3 (r : Row) : String := normalize_gestion3 r.Gestion

/-- `app.py` lines 106–114 / `app3.py` lines 77–82: `URY_LOCAL` and
`URY_RESTO` use `Pot_Visita`; every other key uses `Pot_Trip`. -/
def potUsed (key : String) (potVisita potTrip : ℚ) : ℚ :=
  if key = "URY_LOCAL" ∨ key = "URY_RESTO" then potVisita else potTrip

/-- `app.py` line 126: `eligible = (to_numeric(NG, coerce).fillna(0) == 0)`. -/
def initEligA (r : Row) : Bool := decide (coerce0 r.NG = 0)

/-- `app3.py` line 85: `eligible = (to_numeric(NG, coerce) == 0)` — no
`fillna`, so a `NaN` (non-parseable) `NG` compares unequal to `0`. -/
def initElig3 (r : Row) : Bool := decide (r.NG = some 0)

/-- The amount after materialization, the wallet floor and the global cap
(`app.py` lines 129–140; identically `app3.py` lines 87–93), given the
initial eligibility, the raw amount, and the floor/cap parameters.
Ineligible rows keep the initialized `0.0`. -/
def preAmount (elig : Bool) (raw min_wallet cap : ℚ) : ℚ :=
  let a0 := if elig then raw else 0
  let a1 := if elig ∧ a0 < min_wallet then min_wallet else a0
  if elig then min a1 cap else a1

/-- Exclusion rule 1 (`app.py` lines 144–146 / `app3.py` line 96):
`Comps > 200` zeroes the amount and flips eligibility. -/
def rule1 (comps : ℚ) (s : Bool × ℚ) : Bool × ℚ :=
  if comps > 200 then (false, 0) else s

/-- Exclusion rule 2 (`app.py` lines 149–152 / `app3.py` line 97): an amount
(as left by rule 1) not exceeding `Promo2` zeroes it and flips eligibility. -/
def rule2 (promo2 : ℚ) (s : Bool × ℚ) : Bool × ℚ :=
  if s.2 ≤ promo2 then (false, 0) else s

/-- Exclusion rule 3 (`app.py` lines 155–159 / `app3.py` line 98): an amount
(as left by rule 2) exceeding `WxV` zeroes it and flips eligibility. -/
def rule3 (wxv : ℚ) (s : Bool × ℚ) : Bool × ℚ :=
  if s.2 > wxv then (false, 0) else s

/-- The three exclusion rules, in source order, on an
(eligibility, amount) state. -/
def exclusionRules (comps promo2 wxv : ℚ) (s : Bool × ℚ) : Bool × ℚ :=
  rule3 wxv (rule2 promo2 (rule1 comps s))

/-- Eligibility and amount of `app.py` after lines 126–140 (before the
exclusion rules). -/
def preRulesA (cfg : Config) (r : Row) : Bool × ℚ :=
  let key := gKeyA r
  let raw := potUsed key (coerce0 r.Pot_Visita) (coerce0 r.Pot_Trip) * pctForA cfg.pcts key
  (initEligA r, preAmount (initEligA r) raw cfg.min_wallet cfg.cap)

/-- Eligibility and amount of `app.py` after the exclusion rules
(lines 142–159). -/
def postRulesA (cfg : Config) (r : Row) : Bool × ℚ :=
  exclusionRules (coerce0 r.Comps) (coerce0 r.Promo2) (coerce0 r.WxV) (preRulesA cfg r)

/-- `app.py` lines 165–171: the final `np.select` classification (this
overwrites the per-rule `"NO APLICA"` writes of lines 146/152/159). -/
def classifyA (wxv reinv : ℚ) : String :=
  if reinv = 0 then "NO APLICA"
  else if 0 < wxv ∧ reinv ≤ wxv * (1 / 2) then "<50%"
  else if 0 < wxv ∧ reinv ≤ wxv then "50-100%"
  else "NO APLICA"

/-- The derived fields of one output row. -/
structure Out where
  Potencial : ℚ
  gestionKey : String
  pot_used : ℚ
  pct : ℚ
  eligible : Bool
  reinvestment_raw : ℚ
  reinvestment : ℚ
  Rango_Reinv : String
  deriving DecidableEq

/-- One row of `app.py`'s `apply_reinvestment` (lines 92–176), as a pure
function of the row and the configuration. -/
def applyReinvestmentRowA (cfg : Config) (r : Row) : Out :=
  let key := gKeyA r
  let pu := potUsed key (coerce0 r.Pot_Visita) (coerce0 r.Pot_Trip)
  let pct := pctForA cfg.pcts key
  let s := postRulesA cfg r
  { Potencial := max (coerce0 r.TeoricoNeto) (coerce0 r.WinTotalNeto)
    gestionKey := key
    pot_used := round2 pu
    pct := pct
    eligible := s.1
    reinvestment_raw := round2 (pu * pct)
    reinvestment := round2 s.2
    Rango_Reinv := classifyA (coerce0 r.WxV) s.2 }

/-! ### The `app3.py` engine -/

/-- `app3.py` line 58: `df["WxV"] = to_numeric(df["Pot_Visita"]).fillna(0)`. -/
def wxv3 (r : Row) : ℚ := coerce0 r.Pot_Visita

/-- Eligibility and amount of `app3.py` after lines 85–93. -/
def preRules3 (cfg : Config3) (r : Row) : Bool × ℚ :=
  let key := gKey3 r
  let raw := potUsed key (coerce0 r.Pot_Visita) (coerce0 r.Pot_Trip) * pctFor3 cfg.pcts key
  (initElig3 r, preAmount (initElig3 r) raw cfg.min_wallet cfg.cap)

/-- Eligibility and amount of `app3.py` after the exclusion rules
(lines 96–98).  `WxV` here is the coerced `Pot_Visita`. -/
def postRules3 (cfg : Config3) (r : Row) : Bool × ℚ :=
  exclusionRules (coerce0 r.Comps) (coerce0 r.Promo2) (wxv3 r) (preRules3 cfg r)

/-- `app3.py` line 105's key normalization: `key.replace(" ", "_").upper()`. -/
def capsKey (s : String) : String :=
  String.mk ((spaceToUnd s.data).map pyUpperChar)

/-- `app3.py` lines 101–109: first `country_caps` entry whose normalized key
equals the row's stripped, normalized `Pais` (the `break` after a match). -/
def capsFind (caps : List (String × ℚ × ℚ)) (pais : String) : Option (ℚ × ℚ) :=
  (caps.find? (fun kv => capsKey kv.1 = capsKey (String.mk (pyStrip pais.data)))).map (fun kv => kv.2)

/-- `app3.py` lines 104–109: clamp the amount with the matching override
(`max` with its min, then `min` with its max); no match leaves it unchanged.
Applied to every row, after the exclusion rules. -/
def applyCaps (caps : List (String × ℚ × ℚ)) (pais : String) (a : ℚ) : ℚ :=
  match capsFind caps pais with
  | some (mn, mx) => min (max a mn) mx
  | none => a

/-- `app3.py` lines 113–117: the `np.select` classification — unlike
`app.py`, without the `WxV > 0` guards. -/
def classify3 (wxv reinv : ℚ) : String :=
  if reinv = 0 then "NO APLICA"
  else if reinv ≤ wxv * (1 / 2) then "<50%"
  else if reinv ≤ wxv then "50-100%"
  else "NO APLICA"

/-- One row of `app3.py`'s `apply_reinvestment` (lines 70–119): exclusion
rules first, then the country-cap clamp, then classification, then rounding. -/
def applyReinvestmentRow3 (cfg : Config3) (r : Row) : Out :=
  let key := gKey3 r
  let pu := potUsed key (coerce0 r.Pot_Visita) (coerce0 r.Pot_Trip)
  let pct := pctFor3 cfg.pcts key
  let s := postRules3 cfg r
  let a := applyCaps cfg.country_caps r.Pais s.2
  { Potencial := max (coerce0 r.TeoricoNeto) (coerce0 r.WinTotalNeto)
    gestionKey := key
    pot_used := pu
    pct := pct
    eligible := s.1
    reinvestment_raw := pu * pct
    reinvestment := round2 a
    Rango_Reinv := classify3 (wxv3 r) a }

/-- Modelled from the spec: `app3.py`'s row computation as claim C2 describes
the stage order — the country override clamped onto the amount after the
global cap and *before* the exclusion rules, so that the rules evaluate the
clamped amount.  Used only to compare that description with
`applyReinvestmentRow3`. -/
def applyReinvestmentRow3SpecOrder (cfg : Config3) (r : Row) : Out :=
  let key := gKey3 r
  let pu := potUsed key (coerce0 r.Pot_Visita) (coerce0 r.Pot_Trip)
  let pct := pctFor3 cfg.pcts key
  let a0 := preAmount (initElig3 r) (pu * pct) cfg.min_wallet cfg.cap
  let a1 := applyCaps cfg.country_caps r.Pais a0
  let s := exclusionRules (coerce0 r.Comps) (coerce0 r.Promo2) (wxv3 r) (initElig3 r, a1)
  { Potencial := max (coerce0 r.TeoricoNeto) (coerce0 r.WinTotalNeto)
    gestionKey := key
    pot_used := pu
    pct := pct
    eligible := s.1
    reinvestment_raw := pu * pct
    reinvestment := round2 s.2
    Rango_Reinv := classify3 (wxv3 r) s.2 }

/-! ## Table level: schema validation (`app.py` lines 79–89, `app2.py`
lines 89–104) and the run result -/

/-- `app.py` lines 79–84: the required columns of the cleaned dataframe. -/
def requiredColsA : List String :=
  ["Gestion", "NG", "Visitas", "TeoricoNeto", "WinTotalNeto",
   "WxV", "Visitas_Est", "Trip_Esperado", "Pais",
   "Pot_Trip", "Pot_Visita", "Comps", "Promo2", "MaxCategHist"]

/-- The input table: its (already normalized) column names, and its rows. -/
structure Table where
  cols : List String
  rows : List Row
  deriving DecidableEq

/-- `app.py` line 86: `[c for c in required_cols if c not in df.columns]`. -/
def missingCols (t : Table) : List String :=
  requiredColsA.filter (fun c => !(t.cols.contains c))

/-- Result of a run: either the schema error naming the missing columns
(`st.error(...)` followed by `return None`, lines 87–89), or the result rows. -/
inductive RunResult where
  | schemaError : List String → RunResult
  | ok : List Out → RunResult
  deriving DecidableEq

/-- `app.py`'s `apply_reinvestment` at table level: fail with the complete
missing-column list if any required column is absent, else process every row
(rows are independent: every pandas operation of lines 92–176 is
per-row). -/
def applyReinvestmentTable (cfg : Config) (t : Table) : RunResult :=
  if missingCols t ≠ [] then RunResult.schemaError (missingCols t)
  else RunResult.ok (t.rows.map (applyReinvestmentRowA cfg))

/-! ## Object heap: the `df = df.copy()` discipline (`app.py` line 76,
`app2.py` line 86, `app3.py` line 54)

Pandas dataframes are mutable objects; to state that the caller's dataframe
is not mutated we model an object store explicitly: a heap maps object ids
to tables, `copy` allocates a fresh id, and every in-place write of the
engine body targets the id bound to the local name `df` after line 76. -/

structure Heap where
  tables : Nat → Table
  next : Nat

/-- Write a table to an object id. -/
def Heap.write (h : Heap) (i : Nat) (t : Table) : Heap :=
  { tables := fun j => if j = i then t else h.tables j, next := h.next }

/-- Allocate a fresh object holding `t`; returns the new heap and the new id. -/
def Heap.alloc (h : Heap) (t : Table) : Heap × Nat :=
  ({ tables := fun j => if j = h.next then t else h.tables j, next := h.next + 1 }, h.next)

/-- The columns `apply_reinvestment` adds to its working dataframe. -/
def derivedCols : List String :=
  ["Potencial", "GESTION_KEY", "pot_used", "pct", "eligible",
   "reinvestment_raw", "reinvestment", "Rango_Reinv", "Trips_Calc"]

/-- `app.py`'s `apply_reinvestment` as a heap program: `df` is the id of the
caller's dataframe; line 76 (`df = df.copy()`) allocates a copy and rebinds
the local name, and all subsequent writes (numeric coercion, derived
columns, rule updates) target the copy.  On a schema error the function
returns before any write (lines 86–89).  Returns the final heap and the run
result. -/
def applyReinvestmentProg (cfg : Config) (h : Heap) (df : Nat) : Heap × RunResult :=
  let t := h.tables df
  let alloc := h.alloc t
  let h1 := alloc.1
  let local_df := alloc.2
  match applyReinvestmentTable cfg t with
  | RunResult.schemaError m => (h1, RunResult.schemaError m)
  | RunResult.ok outs =>
    (h1.write local_df { cols := t.cols ++ derivedCols, rows := t.rows }, RunResult.ok outs)

/-! ## Helper lemmas: rounding -/

theorem ratFloor_eq_floor (q : ℚ) : q.floor = ⌊q⌋ := by
  rw [Rat.floor_def', Rat.floor_def]

theorem rhe_le_of_le {q : ℚ} {k : ℤ} (h : q ≤ (k : ℚ)) : rhe q ≤ k := by
  have hfk : ⌊q⌋ ≤ k := by
    refine le_trans (Int.floor_le_floor h) ?_
    simp
  have hq : (⌊q⌋ : ℚ) ≤ q := Int.floor_le q
  simp only [rhe, ratFloor_eq_floor]
  split_ifs with h1 h2 h3
  · exact hfk
  · have hlt : (⌊q⌋ : ℚ) < (k : ℚ) := by linarith
    have := Int.cast_lt.mp hlt
    omega
  · exact hfk
  · have hge : (1 : ℚ) / 2 ≤ q - (⌊q⌋ : ℚ) := le_of_not_lt h1
    have hlt : (⌊q⌋ : ℚ) < (k : ℚ) := by linarith
    have := Int.cast_lt.mp hlt
    omega

theorem le_rhe_of_le {q : ℚ} {k : ℤ} (h : (k : ℚ) ≤ q) : k ≤ rhe q := by
  have hk : k ≤ ⌊q⌋ := Int.le_floor.mpr h
  simp only [rhe, ratFloor_eq_floor]
  split_ifs <;> omega

theorem rhe_intCast (k : ℤ) : rhe ((k : ℤ) : ℚ) = k := by
  simp only [rhe, ratFloor_eq_floor, Int.floor_intCast, sub_self]
  norm_num

theorem round2_zero : round2 0 = 0 := by
  have h : (100 : ℚ) * 0 = ((0 : ℤ) : ℚ) := by norm_num
  rw [round2, h, rhe_intCast]
  norm_num

theorem round2_nonneg {q : ℚ} (h : 0 ≤ q) : 0 ≤ round2 q := by
  have h1 : ((0 : ℤ) : ℚ) ≤ 100 * q := by push_cast; linarith
  have h2 := le_rhe_of_le h1
  rw [round2]
  have h3 : (0 : ℚ) ≤ ((rhe (100 * q) : ℤ) : ℚ) := by exact_mod_cast h2
  exact div_nonneg h3 (by norm_num)

theorem round2_le_of_le_cents {q : ℚ} {k : ℤ} (h : q ≤ (k : ℚ) / 100) :
    round2 q ≤ (k : ℚ) / 100 := by
  have h1 : 100 * q ≤ (k : ℚ) := by linarith
  have h2 := rhe_le_of_le h1
  rw [round2]
  have h3 : ((rhe (100 * q) : ℤ) : ℚ) ≤ (k : ℚ) := by exact_mod_cast h2
  exact (div_le_div_iff_of_pos_right (by norm_num)).mpr h3

theorem round2_cents (k : ℤ) : round2 ((k : ℚ) / 100) = (k : ℚ) / 100 := by
  have h : (100 : ℚ) * ((k : ℚ) / 100) = ((k : ℤ) : ℚ) := by field_simp
  rw [round2, h, rhe_intCast]

/-! ## Helper lemmas: the exclusion rules -/

theorem rule1_elig {c : ℚ} {s : Bool × ℚ} (h : (rule1 c s).1 = true) : s.1 = true := by
  unfold rule1 at h
  split_ifs at h
  exact h

theorem rule2_elig {p : ℚ} {s : Bool × ℚ} (h : (rule2 p s).1 = true) : s.1 = true := by
  unfold rule2 at h
  split_ifs at h
  exact h

theorem rule3_elig {w : ℚ} {s : Bool × ℚ} (h : (rule3 w s).1 = true) : s.1 = true := by
  unfold rule3 at h
  split_ifs at h
  exact h

theorem exclusionRules_elig {c p w : ℚ} {s : Bool × ℚ}
    (h : (exclusionRules c p w s).1 = true) : s.1 = true :=
  rule1_elig (rule2_elig (rule3_elig h))

theorem rule1_zero {c : ℚ} {s : Bool × ℚ} (hs : s.1 = false → s.2 = 0) :
    (rule1 c s).1 = false → (rule1 c s).2 = 0 := by
  simp only [rule1]
  split_ifs <;> simp_all

theorem rule2_zero {p : ℚ} {s : Bool × ℚ} (hs : s.1 = false → s.2 = 0) :
    (rule2 p s).1 = false → (rule2 p s).2 = 0 := by
  simp only [rule2]
  split_ifs <;> simp_all

theorem rule3_zero {w : ℚ} {s : Bool × ℚ} (hs : s.1 = false → s.2 = 0) :
    (rule3 w s).1 = false → (rule3 w s).2 = 0 := by
  simp only [rule3]
  split_ifs <;> simp_all

theorem exclusionRules_zero {c p w : ℚ} {s : Bool × ℚ} (hs : s.1 = false → s.2 = 0) :
    (exclusionRules c p w s).1 = false → (exclusionRules c p w s).2 = 0 :=
  rule3_zero (rule2_zero (rule1_zero hs))

theorem rule1_bounds {c hi : ℚ} {s : Bool × ℚ} (hhi : 0 ≤ hi)
    (h : 0 ≤ s.2 ∧ s.2 ≤ hi) : 0 ≤ (rule1 c s).2 ∧ (rule1 c s).2 ≤ hi := by
  simp only [rule1]
  split_ifs <;> simp_all

theorem rule2_bounds {p hi : ℚ} {s : Bool × ℚ} (hhi : 0 ≤ hi)
    (h : 0 ≤ s.2 ∧ s.2 ≤ hi) : 0 ≤ (rule2 p s).2 ∧ (rule2 p s).2 ≤ hi := by
  simp only [rule2]
  split_ifs <;> simp_all

theorem rule3_bounds {w hi : ℚ} {s : Bool × ℚ} (hhi : 0 ≤ hi)
    (h : 0 ≤ s.2 ∧ s.2 ≤ hi) : 0 ≤ (rule3 w s).2 ∧ (rule3 w s).2 ≤ hi := by
  simp only [rule3]
  split_ifs <;> simp_all

theorem exclusionRules_bounds {c p w hi : ℚ} {s : Bool × ℚ} (hhi : 0 ≤ hi)
    (h : 0 ≤ s.2 ∧ s.2 ≤ hi) :
    0 ≤ (exclusionRules c p w s).2 ∧ (exclusionRules c p w s).2 ≤ hi :=
  rule3_bounds hhi (rule2_bounds hhi (rule1_bounds hhi h))

/-- After rule 3, a surviving nonzero amount is at most `wxv`. -/
theorem rule3_le_wxv {w : ℚ} {s : Bool × ℚ} (h : (rule3 w s).2 ≠ 0) : (rule3 w s).2 ≤ w := by
  unfold rule3 at h ⊢
  split_ifs at h ⊢ with hc
  · simp at h
  · exact le_of_not_lt hc

/-! ## Helper lemmas: floor / cap stage -/

theorem preAmount_false {raw mw cap : ℚ} : preAmount false raw mw cap = 0 := by
  simp [preAmount]

theorem preAmount_true (raw mw cap : ℚ) :
    preAmount true raw mw cap = min (if raw < mw then mw else raw) cap := by
  simp [preAmount]

theorem preAmount_nonneg {e : Bool} {raw mw cap : ℚ} (hmw : 0 ≤ mw) (hcap : 0 ≤ cap) :
    0 ≤ preAmount e raw mw cap := by
  cases e
  · simp [preAmount]
  · rw [preAmount_true]
    split_ifs with h
    · exact le_min hmw hcap
    · exact le_min (by linarith [not_lt.mp h]) hcap

theorem preAmount_le_cap {e : Bool} {raw mw cap : ℚ} (hcap : 0 ≤ cap) :
    preAmount e raw mw cap ≤ cap := by
  cases e
  · simpa [preAmount] using hcap
  · rw [preAmount_true]
    exact min_le_right _ _

/-! ## Helper lemmas: engine stages -/

theorem preRulesA_fst (cfg : Config) (r : Row) : (preRulesA cfg r).1 = initEligA r := rfl

theorem preRulesA_zero (cfg : Config) (r : Row) :
    (preRulesA cfg r).1 = false → (preRulesA cfg r).2 = 0 := by
  intro h
  rw [preRulesA] at h ⊢
  simp only at h ⊢
  rw [h]
  exact preAmount_false

theorem postRulesA_zero (cfg : Config) (r : Row) :
    (postRulesA cfg r).1 = false → (postRulesA cfg r).2 = 0 :=
  exclusionRules_zero (preRulesA_zero cfg r)

theorem postRulesA_bounds (cfg : Config) (r : Row) (hmw : 0 ≤ cfg.min_wallet)
    (hcap : 0 ≤ cfg.cap) : 0 ≤ (postRulesA cfg r).2 ∧ (postRulesA cfg r).2 ≤ cfg.cap :=
  exclusionRules_bounds hcap ⟨preAmount_nonneg hmw hcap, preAmount_le_cap hcap⟩

theorem preRules3_fst (cfg : Config3) (r : Row) : (preRules3 cfg r).1 = initElig3 r := rfl

theorem preRules3_zero (cfg : Config3) (r : Row) :
    (preRules3 cfg r).1 = false → (preRules3 cfg r).2 = 0 := by
  intro h
  rw [preRules3] at h ⊢
  simp only at h ⊢
  rw [h]
  exact preAmount_false

theorem postRules3_zero (cfg : Config3) (r : Row) :
    (postRules3 cfg r).1 = false → (postRules3 cfg r).2 = 0 :=
  exclusionRules_zero (preRules3_zero cfg r)

theorem postRules3_bounds (cfg : Config3) (r : Row) (hmw : 0 ≤ cfg.min_wallet)
    (hcap : 0 ≤ cfg.cap) : 0 ≤ (postRules3 cfg r).2 ∧ (postRules3 cfg r).2 ≤ cfg.cap :=
  exclusionRules_bounds hcap ⟨preAmount_nonneg hmw hcap, preAmount_le_cap hcap⟩

theorem rowA_eligible (cfg : Config) (r : Row) :
    (applyReinvestmentRowA cfg r).eligible = (postRulesA cfg r).1 := rfl

theorem rowA_reinvestment (cfg : Config) (r : Row) :
    (applyReinvestmentRowA cfg r).reinvestment = round2 (postRulesA cfg r).2 := rfl

theorem rowA_rango (cfg : Config) (r : Row) :
    (applyReinvestmentRowA cfg r).Rango_Reinv = classifyA (coerce0 r.WxV) (postRulesA cfg r).2 := rfl

theorem row3_eligible (cfg : Config3) (r : Row) :
    (applyReinvestmentRow3 cfg r).eligible = (postRules3 cfg r).1 := rfl

theorem row3_reinvestment (cfg : Config3) (r : Row) :
    (applyReinvestmentRow3 cfg r).reinvestment
      = round2 (applyCaps cfg.country_caps r.Pais (postRules3 cfg r).2) := rfl

theorem row3_rango (cfg : Config3) (r : Row) :
    (applyReinvestmentRow3 cfg r).Rango_Reinv
      = classify3 (wxv3 r) (applyCaps cfg.country_caps r.Pais (postRules3 cfg r).2) := rfl

theorem applyCaps_none {caps : List (String × ℚ × ℚ)} {pais : String} {a : ℚ}
    (h : capsFind caps pais = none) : applyCaps caps pais a = a := by
  simp [applyCaps, h]

theorem applyCaps_some {caps : List (String × ℚ × ℚ)} {pais : String} {a mn mx : ℚ}
    (h : capsFind caps pais = some (mn, mx)) : applyCaps caps pais a = min (max a mn) mx := by
  simp [applyCaps, h]

theorem rule2_zeroed (p : ℚ) : rule2 p (false, 0) = (false, 0) := by
  unfold rule2
  split_ifs <;> rfl

theorem rule3_zeroed (w : ℚ) : rule3 w (false, 0) = (false, 0) := by
  unfold rule3
  split_ifs <;> rfl

/-! ## Helper lemmas: classification -/

theorem classifyA_zero (wxv : ℚ) : classifyA wxv 0 = "NO APLICA" := by
  simp [classifyA]

theorem classify3_zero (wxv : ℚ) : classify3 wxv 0 = "NO APLICA" := by
  simp [classify3]

theorem classifyA_eq_NA_iff {wxv a : ℚ} (hnn : 0 ≤ a) (hle : a ≠ 0 → a ≤ wxv) :
    classifyA wxv a = "NO APLICA" ↔ a = 0 := by
  constructor
  · intro h
    by_contra hne
    have hpos : 0 < a := lt_of_le_of_ne hnn (Ne.symm hne)
    have hw : a ≤ wxv := hle hne
    have hwpos : 0 < wxv := lt_of_lt_of_le hpos hw
    unfold classifyA at h
    rw [if_neg hne] at h
    by_cases h2 : 0 < wxv ∧ a ≤ wxv * (1 / 2)
    · rw [if_pos h2] at h
      exact absurd h (by decide)
    · rw [if_neg h2, if_pos ⟨hwpos, hw⟩] at h
      exact absurd h (by decide)
  · intro h
    simp [classifyA, h]

theorem classify3_eq_NA_iff {wxv a : ℚ} (hnn : 0 ≤ a) (hle : a ≠ 0 → a ≤ wxv) :
    classify3 wxv a = "NO APLICA" ↔ a = 0 := by
  constructor
  · intro h
    by_contra hne
    have hw : a ≤ wxv := hle hne
    unfold classify3 at h
    rw [if_neg hne] at h
    by_cases h2 : a ≤ wxv * (1 / 2)
    · rw [if_pos h2] at h
      exact absurd h (by decide)
    · rw [if_neg h2, if_pos hw] at h
      exact absurd h (by decide)
  · intro h
    simp [classify3, h]

/-! ## Helper lemmas: dictionaries -/

theorem dictGet_no_match {l : List (String × ℚ)} {k : String}
    (h : ∀ kv ∈ l, kv.1 ≠ k) : dictGet l k = none := by
  unfold dictGet
  induction l with
  | nil => rfl
  | cons kv rest ih =>
    rw [List.foldl_cons]
    rw [if_neg (h kv (List.mem_cons_self kv rest))]
    exact ih (fun kv' hkv' => h kv' (List.mem_cons_of_mem kv hkv'))

/-! ## Helper lemmas: string normalizer characters -/

theorem mem_of_mem_dropWhile {p : Char → Bool} {l : List Char} {x : Char}
    (h : x ∈ l.dropWhile p) : x ∈ l := by
  induction l with
  | nil => simpa using h
  | cons c rest ih =>
    rw [List.dropWhile_cons] at h
    split_ifs at h
    · exact List.mem_cons_of_mem _ (ih h)
    · exact h

theorem mem_of_mem_pyStrip {l : List Char} {x : Char} (h : x ∈ pyStrip l) : x ∈ l := by
  unfold pyStrip at h
  have h1 := mem_of_mem_dropWhile (List.mem_reverse.mp h)
  exact mem_of_mem_dropWhile (List.mem_reverse.mp h1)

theorem mem_of_mem_stripUnd {l : List Char} {x : Char} (h : x ∈ stripUnd l) : x ∈ l := by
  unfold stripUnd at h
  have h1 := mem_of_mem_dropWhile (List.mem_reverse.mp h)
  exact mem_of_mem_dropWhile (List.mem_reverse.mp h1)

theorem mem_of_mem_squeezeUnd {l : List Char} {x : Char} (h : x ∈ squeezeUnd l) : x ∈ l := by
  induction l with
  | nil => simpa [squeezeUnd] using h
  | cons c rest ih =>
    simp only [squeezeUnd] at h
    split_ifs at h
    · exact List.mem_cons_of_mem _ (ih h)
    · rcases List.mem_cons.mp h with h | h
      · exact h ▸ List.mem_cons_self _ _
      · exact List.mem_cons_of_mem _ (ih h)

theorem pyUpperChar_word {c : Char} (h : isWordChar c = true) :
    isWordChar (pyUpperChar c) = true := by
  unfold pyUpperChar
  split <;> first | decide | exact h

theorem pyUpperChar_not_lower (c : Char) : isLowerAscii (pyUpperChar c) = false := by
  unfold pyUpperChar
  split <;> first | decide | (unfold isLowerAscii; split <;> simp_all)

theorem clean_column_name_chars {s : String} {x : Char}
    (h : x ∈ (clean_column_name s).data) : isWordChar x = true := by
  simp only [clean_column_name] at h
  have h1 := mem_of_mem_squeezeUnd (mem_of_mem_stripUnd h)
  exact (List.mem_filter.mp h1).2

theorem normalize_gestion_value_chars {s : String} {x : Char}
    (h : x ∈ (normalize_gestion_value s).data) :
    isWordChar x = true ∧ isLowerAscii x = false := by
  simp only [normalize_gestion_value] at h
  rcases List.mem_map.mp h with ⟨b, hb, rfl⟩
  exact ⟨pyUpperChar_word (List.mem_filter.mp hb).2, pyUpperChar_not_lower b⟩

theorem normalize_gestion3_chars {s : String} {x : Char}
    (h : x ∈ (normalize_gestion3 s).data) : isWordChar x = true := by
  simp only [normalize_gestion3] at h
  exact (List.mem_filter.mp h).2

/-! ## Claim C9: the Normalizer -/

/-- Claim C9 (counterexample): the spec's §4.1 pipeline (`specNormalize`)
disagrees with the source normalizers.  `normalize_gestion_value` neither
collapses repeated underscores nor strips leading/trailing ones
(`"_a_"` → `"_A_"`, while the claimed pipeline gives `"A"`), and `app3.py`'s
column-name normalizer `clean` lowercases instead of preserving case
(`"AbC"` → `"abc"`). -/
theorem claim9_counterexample :
    normalize_gestion_value ("_a_") ≠ specNormalize true ("_a_") ∧
    normalize_gestion_value ("_a_") = "_A_" ∧
    specNormalize true ("_a_") = "A" ∧
    clean3 ("AbC") ≠ specNormalize false ("AbC") ∧
    clean3 ("AbC") = "abc" ∧
    specNormalize false ("AbC") = "AbC" := by
  decide

/-- Claim C9 as amended: each normalizer is a deterministic, pure, total
function of the input string.  `clean_column_name` (app.py/app2.py) yields
only `[0-9A-Za-z_]` characters, case preserved; it replaces space characters
(only — other whitespace is removed, not replaced) by underscores, collapses
repeated underscores and strips edge underscores.  `normalize_gestion_value`
yields only uppercase word characters, replacing every whitespace run by one
underscore, but does not collapse repeated underscores nor strip edge
underscores.  `app3.py`'s `clean` lowercases column names. -/
theorem claim9_amended :
    (∀ s : String, ∀ c ∈ (clean_column_name s).data, isWordChar c = true) ∧
    (∀ s : String, ∀ c ∈ (normalize_gestion_value s).data,
      isWordChar c = true ∧ isLowerAscii c = false) ∧
    (∀ s : String, ∀ c ∈ (normalize_gestion3 s).data, isWordChar c = true) ∧
    clean_column_name ("a\tb") = "ab" ∧
    clean_column_name ("a  b") = "a_b" ∧
    clean_column_name ("  País  x_y ") = "Pais_x_y" ∧
    clean_column_name ("AbC") = "AbC" ∧
    normalize_gestion_value ("a\t b") = "A_B" ∧
    normalize_gestion_value ("_a__b_") = "_A__B_" ∧
    normalize_gestion_value ("Ury Local") = "URY_LOCAL" ∧
    clean3 ("Pot. xVisita") = "pot_xvisita" := by
  refine ⟨?_, ?_, ?_, by decide, by decide, by decide, by decide, by decide, by decide,
    by decide, by decide⟩
  · intro s c hc
    exact clean_column_name_chars hc
  · intro s c hc
    exact normalize_gestion_value_chars hc
  · intro s c hc
    exact normalize_gestion3_chars hc

/-- Claim C9 witness: the universally quantified parts of `claim9_amended`
evaluated at concrete inputs. -/
theorem claim9_witness :
    isWordChar ('G') = true ∧ (isWordChar ('U') = true ∧ isLowerAscii ('U') = false) := by
  constructor
  · exact claim9_amended.1 ("Gestión") ('G') (by decide)
  · exact claim9_amended.2.1 ("Ury Local") ('U') (by decide)

/-! ## Claim C8: schema validation -/

/-- Claim C8: with one or more required columns absent, the run fails with a
single schema error naming exactly the missing required columns (all of
them), and no result rows are produced; with every required column present,
validation passes and every row is processed. -/
theorem claim8_schema :
    ∀ (cfg : Config) (t : Table),
      ((∃ c, c ∈ requiredColsA ∧ c ∉ t.cols) →
        applyReinvestmentTable cfg t = RunResult.schemaError (missingCols t) ∧
        (∀ c, c ∈ missingCols t ↔ c ∈ requiredColsA ∧ c ∉ t.cols) ∧
        ∀ outs, applyReinvestmentTable cfg t ≠ RunResult.ok outs) ∧
      ((∀ c ∈ requiredColsA, c ∈ t.cols) →
        applyReinvestmentTable cfg t = RunResult.ok (t.rows.map (applyReinvestmentRowA cfg))) := by
  intro cfg t
  have hmem : ∀ c, c ∈ missingCols t ↔ c ∈ requiredColsA ∧ c ∉ t.cols := by
    intro c
    simp [missingCols, List.mem_filter]
  constructor
  · rintro ⟨c0, hc0r, hc0a⟩
    have hne : missingCols t ≠ [] := by
      intro hnil
      have := (hmem c0).mpr ⟨hc0r, hc0a⟩
      rw [hnil] at this
      simp at this
    refine ⟨?_, hmem, ?_⟩
    · rw [applyReinvestmentTable, if_pos hne]
    · intro outs
      rw [applyReinvestmentTable, if_pos hne]
      simp
  · intro hall
    have hnil : missingCols t = [] := by
      rw [missingCols, List.filter_eq_nil_iff]
      intro c hc
      simp [hall c hc]
    rw [applyReinvestmentTable, if_neg (by simp [hnil])]

/-- Claim C8 witness: a table missing several required columns yields the
schema error carrying the full missing list (e.g. it names both `Visitas`
and `Pais`), and a table with all required columns yields a result. -/
theorem claim8_witness :
    applyReinvestmentTable { pcts := [], min_wallet := 100, cap := 20000 }
        { cols := ["Gestion", "NG", "Extra"], rows := [] }
      = RunResult.schemaError
          (missingCols { cols := ["Gestion", "NG", "Extra"], rows := [] }) ∧
    ("Visitas" ∈ missingCols { cols := ["Gestion", "NG", "Extra"], rows := [] } ∧
     "Pais" ∈ missingCols { cols := ["Gestion", "NG", "Extra"], rows := [] }) ∧
    applyReinvestmentTable { pcts := [], min_wallet := 100, cap := 20000 }
        { cols := requiredColsA, rows := [] }
      = RunResult.ok [] := by
  have h1 := (claim8_schema { pcts := [], min_wallet := 100, cap := 20000 }
    { cols := ["Gestion", "NG", "Extra"], rows := [] }).1
    ⟨"Visitas", by decide, by decide⟩
  have h2 := (claim8_schema { pcts := [], min_wallet := 100, cap := 20000 }
    { cols := requiredColsA, rows := [] }).2 (by decide)
  refine ⟨h1.1, ⟨?_, ?_⟩, by simpa using h2⟩
  · exact (h1.2.1 "Visitas").mpr ⟨by decide, by decide⟩
  · exact (h1.2.1 "Pais").mpr ⟨by decide, by decide⟩

/-! ## Claim C10: the engine does not mutate its input -/

/-- Claim C10: `apply_reinvestment` copies its input dataframe first
(`df = df.copy()`) and every write targets the copy, so the caller's
dataframe object is unchanged when the function returns. -/
theorem claim10_no_mutation :
    ∀ (cfg : Config) (h : Heap) (df : Nat), df < h.next →
      ((applyReinvestmentProg cfg h df).1).tables df = h.tables df := by
  intro cfg h df hlt
  have hne : df ≠ h.next := Nat.ne_of_lt hlt
  unfold applyReinvestmentProg Heap.alloc Heap.write
  dsimp only
  split <;> simp [hne]

/-- Claim C10 witness: a concrete one-object heap is unchanged at the
input's id after a run. -/
theorem claim10_witness :
    ((applyReinvestmentProg { pcts := [], min_wallet := 100, cap := 20000 }
        { tables := fun _ => { cols := ["Gestion"], rows := [] }, next := 1 } 0).1).tables 0
      = { cols := ["Gestion"], rows := [] } := by
  exact claim10_no_mutation { pcts := [], min_wallet := 100, cap := 20000 }
    { tables := fun _ => { cols := ["Gestion"], rows := [] }, next := 1 } 0 (by decide)

theorem postRulesA_elig_of_init (cfg : Config) (r : Row)
    (h : (postRulesA cfg r).1 = true) : initEligA r = true := by
  unfold postRulesA at h
  have h1 := exclusionRules_elig h
  rwa [preRulesA_fst] at h1

theorem postRules3_elig_of_init (cfg : Config3) (r : Row)
    (h : (postRules3 cfg r).1 = true) : initElig3 r = true := by
  unfold postRules3 at h
  have h1 := exclusionRules_elig h
  rwa [preRules3_fst] at h1

/-! ## Sample data for witnesses and counterexamples -/

/-- A well-formed row (spec Scenario 2 shape): segment `ARG`, 10 % of a
1000 potential, floor 100, cap 20000 — survives every rule with 100. -/
def sampleRow : Row :=
  { Gestion := "ARG", Pais := "ARG", NG := some 0, Visitas := some 3,
    TeoricoNeto := some 500, WinTotalNeto := some 400, WxV := some 5000,
    Visitas_Est := some 3, Trip_Esperado := some 0, Pot_Trip := some 1000,
    Pot_Visita := some 2000, Comps := some 0, Promo2 := some 50 }

def sampleCfg : Config :=
  { pcts := [("ARG", Rat.divInt 1 10)], min_wallet := 100, cap := 20000 }

def sampleCfg3 : Config3 :=
  { pcts := [("ARG", Rat.divInt 1 10)], min_wallet := 100, cap := 20000, country_caps := [] }

/-! ## Claim C1: ineligible records and the zero invariant -/

unseal Rat.mul Rat.add Rat.sub Rat.inv in
/-- Claim C1 (counterexample): in `app3.py` the country-cap clamp runs after
the exclusion rules and on every row, so a `non_manageable_flag = 1` record
whose `Pais` matches an override with `min = 500` ends with
`final_amount = 500` (and a non-`NOT_APPLICABLE` label) while
`is_eligible = False` — against the claim's "final_amount equals 0
regardless of the configuration (including any per-country override)". -/
theorem claim1_counterexample :
    (applyReinvestmentRow3
      { pcts := [("ARG", Rat.divInt 1 10)], min_wallet := 100, cap := 20000,
        country_caps := [("ARG", 500, 5000)] }
      { sampleRow with NG := some 1 }).eligible = false ∧
    (applyReinvestmentRow3
      { pcts := [("ARG", Rat.divInt 1 10)], min_wallet := 100, cap := 20000,
        country_caps := [("ARG", 500, 5000)] }
      { sampleRow with NG := some 1 }).reinvestment = 500 ∧
    (applyReinvestmentRow3
      { pcts := [("ARG", Rat.divInt 1 10)], min_wallet := 100, cap := 20000,
        country_caps := [("ARG", 500, 5000)] }
      { sampleRow with NG := some 1 }).Rango_Reinv = "<50%" := by
  decide

/-- Claim C1 as amended: in `app.py` the claim holds as stated —
`is_eligible = False` implies `final_amount = 0` and
`range_label = "NO APLICA"`, and a nonzero `NG` forces both.  In `app3.py`
the same holds for every record whose `Pais` matches no country-cap
override; a matching override's `min` can raise an ineligible record's
amount above `0`. -/
theorem claim1_amended :
    (∀ (cfg : Config) (r : Row),
      ((applyReinvestmentRowA cfg r).eligible = false →
        (applyReinvestmentRowA cfg r).reinvestment = 0 ∧
        (applyReinvestmentRowA cfg r).Rango_Reinv = "NO APLICA") ∧
      (coerce0 r.NG ≠ 0 →
        (applyReinvestmentRowA cfg r).eligible = false ∧
        (applyReinvestmentRowA cfg r).reinvestment = 0)) ∧
    (∀ (cfg : Config3) (r : Row), capsFind cfg.country_caps r.Pais = none →
      ((applyReinvestmentRow3 cfg r).eligible = false →
        (applyReinvestmentRow3 cfg r).reinvestment = 0 ∧
        (applyReinvestmentRow3 cfg r).Rango_Reinv = "NO APLICA") ∧
      (r.NG ≠ some 0 →
        (applyReinvestmentRow3 cfg r).eligible = false ∧
        (applyReinvestmentRow3 cfg r).reinvestment = 0)) := by
  constructor
  · intro cfg r
    constructor
    · intro h
      rw [rowA_eligible] at h
      have hz := postRulesA_zero cfg r h
      rw [rowA_reinvestment, rowA_rango, hz, round2_zero, classifyA_zero]
      exact ⟨rfl, rfl⟩
    · intro h
      have hinit : initEligA r = false := by simp [initEligA, h]
      have hE : (postRulesA cfg r).1 = false := by
        cases hE2 : (postRulesA cfg r).1
        · rfl
        · rw [postRulesA_elig_of_init cfg r hE2] at hinit
          exact absurd hinit (by simp)
      refine ⟨by rw [rowA_eligible]; exact hE, ?_⟩
      rw [rowA_reinvestment, postRulesA_zero cfg r hE, round2_zero]
  · intro cfg r hnone
    constructor
    · intro h
      rw [row3_eligible] at h
      have hz := postRules3_zero cfg r h
      rw [row3_reinvestment, row3_rango, applyCaps_none hnone, hz, round2_zero, classify3_zero]
      exact ⟨rfl, rfl⟩
    · intro h
      have hinit : initElig3 r = false := by simp [initElig3, h]
      have hE : (postRules3 cfg r).1 = false := by
        cases hE2 : (postRules3 cfg r).1
        · rfl
        · rw [postRules3_elig_of_init cfg r hE2] at hinit
          exact absurd hinit (by simp)
      refine ⟨by rw [row3_eligible]; exact hE, ?_⟩
      rw [row3_reinvestment, applyCaps_none hnone, postRules3_zero cfg r hE, round2_zero]

/-- Claim C1 witness: `claim1_amended` at a concrete `NG = 1` record, in both
engines (no override matches in the `app3.py` run). -/
theorem claim1_witness :
    (applyReinvestmentRowA sampleCfg { sampleRow with NG := some 1 }).eligible = false ∧
    (applyReinvestmentRowA sampleCfg { sampleRow with NG := some 1 }).reinvestment = 0 ∧
    (applyReinvestmentRowA sampleCfg { sampleRow with NG := some 1 }).Rango_Reinv
      = "NO APLICA" ∧
    (applyReinvestmentRow3 sampleCfg3 { sampleRow with NG := some 1 }).reinvestment = 0 := by
  have hA := claim1_amended.1 sampleCfg { sampleRow with NG := some 1 }
  have h2 := hA.2 (by decide)
  have h1 := hA.1 h2.1
  have h3 := (claim1_amended.2 sampleCfg3 { sampleRow with NG := some 1 } (by decide)).2
    (by decide)
  exact ⟨h2.1, h2.2, h1.2, h3.2⟩

/-! ## Claim C2: placement of the per-country override clamp -/

def c2Cfg : Config3 :=
  { pcts := [("ARG", Rat.divInt 1 10)], min_wallet := 100, cap := 20000,
    country_caps := [("ARG", 500, 5000)] }

/-- A record computing 100 before the override, with `Promo2 = 200`. -/
def c2Row : Row := { sampleRow with Promo2 := some 200, Pot_Visita := some 1000 }

unseal Rat.mul Rat.add Rat.sub Rat.inv in
/-- Claim C2 (counterexample): the claim places the override clamp before the
exclusion rules (so the rules would see the clamped 500, which exceeds
`Promo2 = 200`, and the record would stay eligible).  The source applies the
clamp after the rules: rule (b) sees the pre-override 100 ≤ 200, excludes
the record, and the override then raises the zeroed amount to 500 — the
eligibility differs from the claimed order. -/
theorem claim2_counterexample :
    (applyReinvestmentRow3 c2Cfg c2Row).eligible = false ∧
    (applyReinvestmentRow3SpecOrder c2Cfg c2Row).eligible = true ∧
    (applyReinvestmentRow3 c2Cfg c2Row).reinvestment = 500 ∧
    (applyReinvestmentRow3SpecOrder c2Cfg c2Row).reinvestment = 500 := by
  decide

/-- Claim C2 as amended: the override clamp is applied after the global cap
and after the three exclusion rules — the rules evaluate the pre-override
amount (they do not read `country_caps` at all), and the clamp
`min (max · min) max` then applies to whatever the rules left, including a
zeroed amount; a record whose post-rules amount is 100 under a matching
override `{min 500, max 5000}` is raised to 500. -/
theorem claim2_amended :
    (∀ (cfg : Config3) (r : Row) (caps2 : List (String × ℚ × ℚ)),
      postRules3 { cfg with country_caps := caps2 } r = postRules3 cfg r) ∧
    (∀ (cfg : Config3) (r : Row) (mn mx : ℚ),
      capsFind cfg.country_caps r.Pais = some (mn, mx) →
      (applyReinvestmentRow3 cfg r).reinvestment
          = round2 (min (max (postRules3 cfg r).2 mn) mx) ∧
      (applyReinvestmentRow3 cfg r).eligible = (postRules3 cfg r).1) ∧
    (∀ a mn mx : ℚ, applyCaps [("ARG", mn, mx)] ("ARG") a = min (max a mn) mx) := by
  refine ⟨fun cfg r caps2 => rfl, ?_, ?_⟩
  · intro cfg r mn mx h
    rw [row3_reinvestment, applyCaps_some h, row3_eligible]
    exact ⟨rfl, rfl⟩
  · intro a mn mx
    exact applyCaps_some rfl

unseal Rat.mul Rat.add Rat.sub Rat.inv in
/-- Claim C2 witness: `claim2_amended` at a record whose post-rules amount is
100 under the `ARG` override `{min 500, max 5000}`: the clamp raises it to
500. -/
theorem claim2_witness :
    (applyReinvestmentRow3 c2Cfg { sampleRow with Pot_Visita := some 1000 }).reinvestment
      = 500 ∧
    (applyReinvestmentRow3 c2Cfg { sampleRow with Pot_Visita := some 1000 }).eligible
      = true := by
  have h := claim2_amended.2.1 c2Cfg { sampleRow with Pot_Visita := some 1000 } 500 5000
    (by decide)
  refine ⟨?_, ?_⟩
  · rw [h.1]
    decide
  · rw [h.2]
    decide

/-! ## Claim C3: rule order and cascading exclusion -/

/-- Claim C3: the three exclusion rules run in the fixed order (a) `Comps >
200`, (b) `amount ≤ Promo2`, (c) `amount > WxV`; a triggered rule zeroes the
amount and flips eligibility, and later rules evaluate the zeroed amount —
so whenever rule (a) triggers, the zeroed amount makes rule (b)'s condition
`0 ≤ Promo2` hold for every nonnegative `Promo2` (cascading exclusion), and
in both engines the record ends ineligible. -/
theorem claim3_cascade :
    (∀ (c p w : ℚ) (s : Bool × ℚ), c > 200 →
      rule1 c s = (false, 0) ∧ exclusionRules c p w s = (false, 0)) ∧
    (∀ (c p : ℚ) (s : Bool × ℚ), c > 200 → 0 ≤ p → (rule1 c s).2 ≤ p) ∧
    (∀ (cfg : Config) (r : Row), coerce0 r.Comps > 200 → 0 ≤ coerce0 r.Promo2 →
      (applyReinvestmentRowA cfg r).eligible = false ∧
      (applyReinvestmentRowA cfg r).reinvestment = 0) ∧
    (∀ (cfg : Config3) (r : Row), coerce0 r.Comps > 200 →
      (applyReinvestmentRow3 cfg r).eligible = false) := by
  have key : ∀ (c p w : ℚ) (s : Bool × ℚ), c > 200 →
      rule1 c s = (false, 0) ∧ exclusionRules c p w s = (false, 0) := by
    intro c p w s hc
    have h1 : rule1 c s = (false, 0) := by
      unfold rule1
      rw [if_pos hc]
    refine ⟨h1, ?_⟩
    unfold exclusionRules
    rw [h1, rule2_zeroed, rule3_zeroed]
  refine ⟨key, ?_, ?_, ?_⟩
  · intro c p s hc hp
    rw [(key c p 0 s hc).1]
    exact hp
  · intro cfg r hc hp
    have hpost : postRulesA cfg r = (false, 0) := by
      unfold postRulesA
      exact (key _ _ _ _ hc).2
    constructor
    · rw [rowA_eligible, hpost]
    · rw [rowA_reinvestment, hpost]
      exact round2_zero
  · intro cfg r hc
    have hpost : postRules3 cfg r = (false, 0) := by
      unfold postRules3
      exact (key _ _ _ _ hc).2
    rw [row3_eligible, hpost]

unseal Rat.mul Rat.add Rat.sub Rat.inv in
/-- Claim C3 witness: `claim3_cascade` at a `Comps = 500` record (spec
Scenario 3 shape) in both engines, and at an explicit rule state. -/
theorem claim3_witness :
    (applyReinvestmentRowA sampleCfg { sampleRow with Comps := some 500 }).eligible
      = false ∧
    (applyReinvestmentRowA sampleCfg { sampleRow with Comps := some 500 }).reinvestment
      = 0 ∧
    (applyReinvestmentRow3 sampleCfg3 { sampleRow with Comps := some 500 }).eligible
      = false ∧
    rule1 300 (true, 150) = (false, 0) ∧
    (rule1 300 (true, 150)).2 ≤ 50 := by
  have h3 := claim3_cascade.2.2.1 sampleCfg { sampleRow with Comps := some 500 }
    (by decide) (by decide)
  have h4 := claim3_cascade.2.2.2 sampleCfg3 { sampleRow with Comps := some 500 }
    (by decide)
  have h5 := (claim3_cascade.1 300 0 0 (true, 150) (by decide)).1
  have h6 := claim3_cascade.2.1 300 50 (true, 150) (by decide) (by decide)
  exact ⟨h3.1, h3.2, h4, h5, h6⟩

/-! ## Claim C4: the bounded-amount invariant -/

def c4Cfg : Config3 :=
  { pcts := [("BRA", Rat.divInt 15 100)], min_wallet := 100, cap := 20000,
    country_caps := [("BRA", 300, 4000)] }

def c4Row : Row :=
  { Gestion := "BRA", Pais := "BRA", NG := some 1, Visitas := some 0,
    TeoricoNeto := some 0, WinTotalNeto := some 0, WxV := some 0,
    Visitas_Est := some 0, Trip_Esperado := some 0, Pot_Trip := some 900,
    Pot_Visita := some 800, Comps := some 0, Promo2 := some 0 }

unseal Rat.mul Rat.add Rat.sub Rat.inv in
/-- Claim C4 (counterexample): in `app3.py` an ineligible (`NG = 1`) record
whose `Pais` matches the `BRA` override `{min 300, max 4000}` ends with
`final_amount = 300`, not `0` — against "final_amount = 0 for every
ineligible record". -/
theorem claim4_counterexample :
    (applyReinvestmentRow3 c4Cfg c4Row).eligible = false ∧
    (applyReinvestmentRow3 c4Cfg c4Row).reinvestment = 300 := by
  decide

/-- Claim C4 as amended: in `app.py` (for a nonnegative floor and a
whole-cent nonnegative cap) every record satisfies
`0 ≤ final_amount ≤ cap`, and every ineligible record has `final_amount =
0`.  In `app3.py` the same holds for records matching no country-cap
override; with a matching override `{min, max}` (nonnegative, `max` a
whole-cent value) every record — eligible or not — satisfies
`0 ≤ final_amount ≤ max`, where `max` may exceed the global cap and `min`
may lift an ineligible record's amount above `0`. -/
theorem claim4_amended :
    (∀ (cfg : Config) (r : Row), 0 ≤ cfg.min_wallet → 0 ≤ cfg.cap →
      (∀ k : ℤ, cfg.cap = (k : ℚ) / 100 →
        0 ≤ (applyReinvestmentRowA cfg r).reinvestment ∧
        (applyReinvestmentRowA cfg r).reinvestment ≤ cfg.cap) ∧
      ((applyReinvestmentRowA cfg r).eligible = false →
        (applyReinvestmentRowA cfg r).reinvestment = 0)) ∧
    (∀ (cfg : Config3) (r : Row) (mn mx : ℚ), 0 ≤ cfg.min_wallet → 0 ≤ cfg.cap →
      0 ≤ mn → 0 ≤ mx → capsFind cfg.country_caps r.Pais = some (mn, mx) →
      ∀ k : ℤ, mx = (k : ℚ) / 100 →
        0 ≤ (applyReinvestmentRow3 cfg r).reinvestment ∧
        (applyReinvestmentRow3 cfg r).reinvestment ≤ mx) ∧
    (∀ (cfg : Config3) (r : Row), 0 ≤ cfg.min_wallet → 0 ≤ cfg.cap →
      capsFind cfg.country_caps r.Pais = none →
      (∀ k : ℤ, cfg.cap = (k : ℚ) / 100 →
        0 ≤ (applyReinvestmentRow3 cfg r).reinvestment ∧
        (applyReinvestmentRow3 cfg r).reinvestment ≤ cfg.cap) ∧
      ((applyReinvestmentRow3 cfg r).eligible = false →
        (applyReinvestmentRow3 cfg r).reinvestment = 0)) := by
  refine ⟨?_, ?_, ?_⟩
  · intro cfg r hmw hcap
    have hb := postRulesA_bounds cfg r hmw hcap
    constructor
    · intro k hk
      rw [rowA_reinvestment]
      refine ⟨round2_nonneg hb.1, ?_⟩
      rw [hk]
      exact round2_le_of_le_cents (by rw [← hk]; exact hb.2)
    · intro h
      rw [rowA_eligible] at h
      rw [rowA_reinvestment, postRulesA_zero cfg r h, round2_zero]
  · intro cfg r mn mx hmw hcap hmn hmx hcaps k hk
    have hb := postRules3_bounds cfg r hmw hcap
    rw [row3_reinvestment, applyCaps_some hcaps]
    have h0 : 0 ≤ min (max (postRules3 cfg r).2 mn) mx :=
      le_min (le_trans hmn (le_max_right _ _)) hmx
    refine ⟨round2_nonneg h0, ?_⟩
    rw [hk]
    exact round2_le_of_le_cents (by rw [← hk]; exact min_le_right _ _)
  · intro cfg r hmw hcap hnone
    have hb := postRules3_bounds cfg r hmw hcap
    constructor
    · intro k hk
      rw [row3_reinvestment, applyCaps_none hnone]
      refine ⟨round2_nonneg hb.1, ?_⟩
      rw [hk]
      exact round2_le_of_le_cents (by rw [← hk]; exact hb.2)
    · intro h
      rw [row3_eligible] at h
      rw [row3_reinvestment, applyCaps_none hnone, postRules3_zero cfg r h, round2_zero]

unseal Rat.mul Rat.add Rat.sub Rat.inv in
/-- Claim C4 witness: `claim4_amended` at the sample record (bounds `0` and
`20000 = 2000000/100` in `app.py`), and at a record matched by the `ARG`
override (bounds `0` and `5000 = 500000/100`). -/
theorem claim4_witness :
    (0 ≤ (applyReinvestmentRowA sampleCfg sampleRow).reinvestment ∧
      (applyReinvestmentRowA sampleCfg sampleRow).reinvestment ≤ sampleCfg.cap) ∧
    (0 ≤ (applyReinvestmentRow3 c2Cfg { sampleRow with Pot_Visita := some 1000 }).reinvestment ∧
      (applyReinvestmentRow3 c2Cfg { sampleRow with Pot_Visita := some 1000 }).reinvestment
        ≤ 5000) := by
  constructor
  · exact (claim4_amended.1 sampleCfg sampleRow (by decide) (by decide)).1 2000000 (by decide)
  · exact claim4_amended.2.1 c2Cfg { sampleRow with Pot_Visita := some 1000 } 500 5000
      (by decide) (by decide) (by decide) (by decide) (by decide) 500000 (by decide)

/-! ## Claim C5: monotone eligibility -/

/-- Claim C5: eligibility is monotone across the engine's stages — each
exclusion rule can only turn `eligible` from `true` to `false`, and an
output-eligible record was necessarily eligible at the initial `NG` stage
(in both engines no stage re-admits an excluded record; the floor/cap,
override and classification stages never write `eligible` at all). -/
theorem claim5_monotone :
    (∀ (c : ℚ) (s : Bool × ℚ), (rule1 c s).1 = true → s.1 = true) ∧
    (∀ (p : ℚ) (s : Bool × ℚ), (rule2 p s).1 = true → s.1 = true) ∧
    (∀ (w : ℚ) (s : Bool × ℚ), (rule3 w s).1 = true → s.1 = true) ∧
    (∀ (cfg : Config) (r : Row),
      (applyReinvestmentRowA cfg r).eligible = true → initEligA r = true) ∧
    (∀ (cfg : Config3) (r : Row),
      (applyReinvestmentRow3 cfg r).eligible = true → initElig3 r = true) := by
  refine ⟨fun c s h => rule1_elig h, fun p s h => rule2_elig h, fun w s h => rule3_elig h,
    ?_, ?_⟩
  · intro cfg r h
    rw [rowA_eligible] at h
    exact postRulesA_elig_of_init cfg r h
  · intro cfg r h
    rw [row3_eligible] at h
    exact postRules3_elig_of_init cfg r h

unseal Rat.mul Rat.add Rat.sub Rat.inv in
/-- Claim C5 witness: `claim5_monotone` at the sample record (output-eligible
in both engines, hence initially eligible) and at an explicit rule state. -/
theorem claim5_witness :
    initEligA sampleRow = true ∧ initElig3 sampleRow = true ∧
    ((true : Bool), (150 : ℚ)).1 = true := by
  refine ⟨?_, ?_, ?_⟩
  · exact claim5_monotone.2.2.2.1 sampleCfg sampleRow (by decide)
  · exact claim5_monotone.2.2.2.2 sampleCfg3 sampleRow (by decide)
  · exact claim5_monotone.1 100 ((true : Bool), (150 : ℚ)) (by decide)

/-! ## Claim C6: classification consistency -/

def c6Cfg : Config3 :=
  { pcts := [("Otros", Rat.divInt 5 100)], min_wallet := 100, cap := 20000,
    country_caps := [("Otros", 700, 9000)] }

def c6Row : Row :=
  { Gestion := "Otros", Pais := "Otros", NG := some 0, Visitas := some 0,
    TeoricoNeto := some 0, WinTotalNeto := some 0, WxV := some 0,
    Visitas_Est := some 0, Trip_Esperado := some 0, Pot_Trip := some 0,
    Pot_Visita := some 0, Comps := some 0, Promo2 := some 0 }

unseal Rat.mul Rat.add Rat.sub Rat.inv in
/-- Claim C6 (counterexample): in `app3.py` a record excluded by the
wallet-ceiling rule and then lifted by the `Otros` override `{min 700}`
ends with `final_amount = 700` yet `range_label = "NO APLICA"` (700 exceeds
its ceiling 0) — so `range_label = "NOT_APPLICABLE"` does not imply
`final_amount = 0`. -/
theorem claim6_counterexample :
    (applyReinvestmentRow3 c6Cfg c6Row).Rango_Reinv = "NO APLICA" ∧
    (applyReinvestmentRow3 c6Cfg c6Row).reinvestment = 700 := by
  decide

/-- Claim C6 as amended: classification runs after the exclusion rules (in
`app3.py` also after the override clamp).  In `app.py`, for a nonnegative
floor and cap, `range_label = "NO APLICA"` holds iff the pre-rounding final
amount is `0`, and a `"NO APLICA"` record has output `final_amount = 0`; the
same holds in `app3.py` for records matching no country-cap override.
(A matching override can produce a nonzero amount labelled `"NO APLICA"`;
rounding can also shrink a positive sub-cent amount to an output `0.0`
carrying an `"<50%"` label.) -/
theorem claim6_amended :
    (∀ (cfg : Config) (r : Row), 0 ≤ cfg.min_wallet → 0 ≤ cfg.cap →
      (((applyReinvestmentRowA cfg r).Rango_Reinv = "NO APLICA") ↔
        (postRulesA cfg r).2 = 0) ∧
      ((applyReinvestmentRowA cfg r).Rango_Reinv = "NO APLICA" →
        (applyReinvestmentRowA cfg r).reinvestment = 0)) ∧
    (∀ (cfg : Config3) (r : Row), 0 ≤ cfg.min_wallet → 0 ≤ cfg.cap →
      capsFind cfg.country_caps r.Pais = none →
      (((applyReinvestmentRow3 cfg r).Rango_Reinv = "NO APLICA") ↔
        (postRules3 cfg r).2 = 0) ∧
      ((applyReinvestmentRow3 cfg r).Rango_Reinv = "NO APLICA" →
        (applyReinvestmentRow3 cfg r).reinvestment = 0)) := by
  constructor
  · intro cfg r hmw hcap
    have hb := postRulesA_bounds cfg r hmw hcap
    have hle : (postRulesA cfg r).2 ≠ 0 → (postRulesA cfg r).2 ≤ coerce0 r.WxV := by
      intro hne
      unfold postRulesA exclusionRules at hne ⊢
      exact rule3_le_wxv hne
    have hiff := classifyA_eq_NA_iff hb.1 hle
    rw [rowA_rango, rowA_reinvestment]
    refine ⟨hiff, ?_⟩
    intro h
    rw [hiff.mp h, round2_zero]
  · intro cfg r hmw hcap hnone
    have hb := postRules3_bounds cfg r hmw hcap
    have hle : (postRules3 cfg r).2 ≠ 0 → (postRules3 cfg r).2 ≤ wxv3 r := by
      intro hne
      unfold postRules3 exclusionRules at hne ⊢
      exact rule3_le_wxv hne
    have hiff := classify3_eq_NA_iff hb.1 hle
    rw [row3_rango, row3_reinvestment, applyCaps_none hnone]
    refine ⟨hiff, ?_⟩
    intro h
    rw [hiff.mp h, round2_zero]

/-- Claim C6 witness: the `app.py` classification-consistency equivalence of
`claim6_amended` at the sample record and configuration. -/
theorem claim6_witness :
    ((applyReinvestmentRowA sampleCfg sampleRow).Rango_Reinv = "NO APLICA") ↔
      ((postRulesA sampleCfg sampleRow).2 = 0) := by
  exact (claim6_amended.1 sampleCfg sampleRow (by decide) (by decide)).1

/-! ## Claim C7: per-row totality and coercion of parse failures -/

def c7Cfg3 : Config3 :=
  { pcts := [("BRA", Rat.divInt 15 100)], min_wallet := 50, cap := 10000,
    country_caps := [] }

def c7CfgA : Config :=
  { pcts := [("BRA", Rat.divInt 15 100)], min_wallet := 50, cap := 10000 }

def c7Row : Row :=
  { Gestion := "BRA", Pais := "BRA", NG := none, Visitas := some 1,
    TeoricoNeto := some 0, WinTotalNeto := some 0, WxV := some 1000,
    Visitas_Est := some 1, Trip_Esperado := some 0, Pot_Trip := some 2000,
    Pot_Visita := some 1000, Comps := some 0, Promo2 := some 0 }

unseal Rat.mul Rat.add Rat.sub Rat.inv in
/-- Claim C7 (counterexample): in `app3.py` the `NG` comparison has no
`fillna(0)`, so a record whose `non_manageable_flag` cell fails numeric
parsing (`NaN`) is *ineligible*, not "coerced to 0 and therefore initially
eligible": the same record with `NG = 0` is eligible, and `app.py` (which
does coerce) keeps the non-parseable-`NG` record eligible. -/
theorem claim7_counterexample :
    (applyReinvestmentRow3 c7Cfg3 c7Row).eligible = false ∧
    (applyReinvestmentRow3 c7Cfg3 { c7Row with NG := some 0 }).eligible = true ∧
    (applyReinvestmentRowA c7CfgA c7Row).eligible = true := by
  decide

/-- Claim C7 as amended: the engines are total per row; every numeric cell
read through `pd.to_numeric(..., errors="coerce").fillna(0)` degrades a
parse failure to `0`, and a category key absent from the percentage mapping
yields percentage `0` rather than an error.  For the `NG` gate, `app.py`
coerces a non-parseable cell to `0` (initially eligible), but `app3.py`
omits the `fillna` and a non-parseable `NG` makes the record initially
ineligible. -/
theorem claim7_amended :
    coerce0 none = 0 ∧
    (∀ q : ℚ, coerce0 (some q) = q) ∧
    (∀ (pcts : List (String × ℚ)) (key : String),
      (∀ kv ∈ pcts, normalize_gestion_value kv.1 ≠ key) → pctForA pcts key = 0) ∧
    (∀ r : Row, r.NG = none → initEligA r = true) ∧
    (∀ r : Row, r.NG = none → initElig3 r = false) := by
  refine ⟨rfl, fun q => rfl, ?_, ?_, ?_⟩
  · intro pcts key h
    unfold pctForA
    rw [dictGet_no_match ?_]
    · rfl
    · intro kv hkv
      rcases List.mem_map.mp hkv with ⟨kv0, hkv0, rfl⟩
      exact h kv0 hkv0
  · intro r h
    simp [initEligA, coerce0, h]
  · intro r h
    simp [initElig3, h]

/-- Claim C7 witness: `claim7_amended` at an unmapped key and at a record
with a non-parseable `NG` cell. -/
theorem claim7_witness :
    pctForA [("ARG", (1 : ℚ))] ("XYZ") = 0 ∧
    initEligA c7Row = true ∧
    initElig3 c7Row = false := by
  refine ⟨?_, ?_, ?_⟩
  · exact claim7_amended.2.2.1 [("ARG", (1 : ℚ))] ("XYZ") (by decide)
  · exact claim7_amended.2.2.2.1 c7Row rfl
  · exact claim7_amended.2.2.2.2 c7Row rfl

end Promo2
